import Mathlib

/-!
# Verification of the calendar-constrained date/time selection engine

This file is a shallow embedding, in Lean 4, of the date/time picker engine of
the `chyVacheck-rhf-ui` component library: the pure date arithmetic and range
checks of `src/utils/Date.utils.ts` (`DateUtils`), the numeric helpers of
`src/utils/Number.utils.ts` (`NumberUtils`), and the selection state machine of
`src/form/fields/RHFDateTimePicker.tsx`.

Modelling conventions:

* A JavaScript `Date` produced by the component is represented by an `Instant`:
  calendar fields year / month (0-11) / day (1-based) / hour / minute.  Every
  `Date` the engine constructs has seconds and milliseconds equal to zero, so
  those fields are omitted.  `Date.prototype.getTime` comparisons are embedded
  as comparisons of `Instant.timeKey`, a lexicographic key that is strictly
  monotone with respect to epoch time on valid calendar instants.
* `new Date(y, m, d, hh, mm)` with possibly out-of-range month/day arguments is
  embedded by `jsDate`, which performs the same field normalisation (rolling
  excess months into years and excess days into the following month) for the
  argument ranges that actually occur in the component.
* React state (`useState` hooks) is collected into a single `PickerState`
  record, and each user interaction handled by the component becomes an
  `Event`; `step` is the induced transition function, including the guards the
  rendered UI enforces (clicks only fire on enabled cells) and the re-seeding
  `useEffect` that runs while the popover is open whenever the form value
  changes.  The externally stored form value is represented by the decoded
  `Option Instant` view (`committed`); the `valueAs` encoding itself is
  modelled separately by the codec functions (`toISOCodes`, `parseISOCodes`,
  `parseToDate`), with strings represented as lists of character codes and the
  local timezone offset taken to be zero.
-/

namespace RhfUi

/-- A timezone-naive calendar instant at minute precision: the model of a
JavaScript `Date` value constructed by the picker (seconds and milliseconds
are always zero in the engine). `month` is 0-based as in JS. -/
structure Instant where
  year : Nat
  month : Nat
  day : Nat
  hour : Nat
  minute : Nat
deriving DecidableEq, Repr

/-- Gregorian leap-year test. -/
def isLeapYear (y : Nat) : Bool :=
  y % 4 = 0 && (y % 100 ≠ 0 || y % 400 = 0)

/-- Number of days of month `m` (0-based) of year `y`; the value of
`new Date(y, m + 1, 0).getDate()`. -/
def daysInMonth (y m : Nat) : Nat :=
  if m = 1 then (if isLeapYear y then 29 else 28)
  else if m = 3 || m = 5 || m = 8 || m = 10 then 30
  else 31

theorem daysInMonth_pos (y m : Nat) : 1 ≤ daysInMonth y m := by
  unfold daysInMonth
  split <;> [split <;> omega; split <;> omega]

theorem daysInMonth_le (y m : Nat) : daysInMonth y m ≤ 31 := by
  unfold daysInMonth
  split <;> [split <;> omega; split <;> omega]

/-- Lexicographic key on calendar fields.  On valid instants (month ≤ 11,
day ≤ 31, hour ≤ 23, minute ≤ 59) it is strictly monotone with respect to
epoch milliseconds, so `a.getTime() < b.getTime()` is embedded as
`a.timeKey < b.timeKey`. -/
def Instant.timeKey (d : Instant) : Nat :=
  (((d.year * 12 + d.month) * 32 + d.day) * 24 + d.hour) * 60 + d.minute

/-- `Instant` validity: the calendar fields a real JS `Date` exposes. -/
def Instant.valid (d : Instant) : Prop :=
  d.month ≤ 11 ∧ 1 ≤ d.day ∧ d.day ≤ daysInMonth d.year d.month ∧
    d.hour ≤ 23 ∧ d.minute ≤ 59

instance (d : Instant) : Decidable d.valid := by
  unfold Instant.valid; infer_instance

/-- `new Date(y, m, d, hh, mm)` for the argument ranges the component uses:
months are reduced modulo 12 into the year, and a day count exceeding the
month length rolls into the following month (a single roll covers every call
site, where the day argument is at most 31). -/
def jsDate (y m d hh mm : Nat) : Instant :=
  let y1 := y + m / 12
  let m1 := m % 12
  if d ≤ daysInMonth y1 m1 then ⟨y1, m1, d, hh, mm⟩
  else if m1 = 11 then ⟨y1 + 1, 0, d - daysInMonth y1 m1, hh, mm⟩
  else ⟨y1, m1 + 1, d - daysInMonth y1 m1, hh, mm⟩

/-- An inclusive-on-both-sides optional date range (`DateRange` of
`Date.utils.ts`). -/
structure DateRange where
  min : Option Instant := none
  max : Option Instant := none
deriving DecidableEq, Repr

namespace NumberUtils

/-- `NumberUtils.clamp`: `Math.min(Math.max(n, min), max)`. -/
def clamp (n mn mx : Nat) : Nat := min (max n mn) mx

end NumberUtils

namespace DateUtils

/-- `DateUtils.stripTime`: `new Date(d.getFullYear(), d.getMonth(), d.getDate())`. -/
def stripTime (d : Instant) : Instant := ⟨d.year, d.month, d.day, 0, 0⟩

/-- `DateUtils.startOfMonth`: `new Date(d.getFullYear(), d.getMonth(), 1)`. -/
def startOfMonth (d : Instant) : Instant := ⟨d.year, d.month, 1, 0, 0⟩

/-- `DateUtils.endOfMonth`: `new Date(d.getFullYear(), d.getMonth() + 1, 0)`,
i.e. the last day of `d`'s month. -/
def endOfMonth (d : Instant) : Instant :=
  ⟨d.year, d.month, daysInMonth d.year d.month, 0, 0⟩

/-- `DateUtils.addMonths(d, delta)` for the two deltas the component uses
(`navigateMonth(-1)` / `navigateMonth(1)`): `new Date(y, m + delta, 1)`. -/
def addMonths1 (d : Instant) (forward : Bool) : Instant :=
  if forward then
    if d.month = 11 then ⟨d.year + 1, 0, 1, 0, 0⟩ else ⟨d.year, d.month + 1, 1, 0, 0⟩
  else
    if d.month = 0 then ⟨d.year - 1, 11, 1, 0, 0⟩ else ⟨d.year, d.month - 1, 1, 0, 0⟩

/-- `DateUtils.isDateInRange(date, range, inclusive)`.  Note that the third
parameter of the source function is `inclusive` (strict vs. non-strict
comparison), and that the function strips the time-of-day from `date` and from
both bounds before comparing: the check is date-only in every mode. -/
def isDateInRange (date : Instant) (range : DateRange) (inclusive : Bool) : Bool :=
  let t := (stripTime date).timeKey
  let okMin :=
    match range.min with
    | none => true
    | some mn =>
        let minT := (stripTime mn).timeKey
        !(if inclusive then decide (t < minT) else decide (t ≤ minT))
  let okMax :=
    match range.max with
    | none => true
    | some mx =>
        let maxT := (stripTime mx).timeKey
        !(if inclusive then decide (maxT < t) else decide (maxT ≤ t))
  okMin && okMax

/-- `DateUtils.isMonthInRange(year, month0, range)`: intersection test between
the month's `[first, last]` day interval and the range. -/
def isMonthInRange (year month0 : Nat) (range : DateRange) : Bool :=
  if range.min = none ∧ range.max = none then true
  else
    let first := (stripTime ⟨year, month0, 1, 0, 0⟩).timeKey
    let last := (stripTime ⟨year, month0, daysInMonth year month0, 0, 0⟩).timeKey
    let left := match range.min with
      | some mn => max first (stripTime mn).timeKey
      | none => first
    let right := match range.max with
      | some mx => min last (stripTime mx).timeKey
      | none => last
    decide (left ≤ right)

/-- `DateUtils.isYearInRange(year, range)`: the same intersection test at year
granularity (`new Date(year, 0, 1)` to `new Date(year + 1, 0, 0)`). -/
def isYearInRange (year : Nat) (range : DateRange) : Bool :=
  if range.min = none ∧ range.max = none then true
  else
    let first := (stripTime ⟨year, 0, 1, 0, 0⟩).timeKey
    let last := (stripTime ⟨year, 11, 31, 0, 0⟩).timeKey
    let left := match range.min with
      | some mn => max first (stripTime mn).timeKey
      | none => first
    let right := match range.max with
      | some mx => min last (stripTime mx).timeKey
      | none => last
    decide (left ≤ right)

/-- `DateUtils.isDayDisabled(date, range, disabledDates)`: excluded by the
custom predicate, or outside the (inclusive, date-only) range. -/
def isDayDisabled (date : Instant) (range : DateRange)
    (disabledDates : Instant → Bool) : Bool :=
  if disabledDates date then true else !(isDateInRange date range true)

end DateUtils

/-- Number of days from 0000-03-01 to year `y` (≥ 1), month `m` (0-based),
day `d`, by the standard civil-calendar formula; used to embed
`Date.prototype.getDay`. -/
def dayNumber (y m d : Nat) : Nat :=
  let yAdj := if m + 1 ≤ 2 then y - 1 else y
  let mp := (m + 10) % 12
  365 * yAdj + yAdj / 4 - yAdj / 100 + yAdj / 400 + (153 * mp + 2) / 5 + d - 1

/-- `Date.prototype.getDay` (0 = Sunday … 6 = Saturday) of the calendar day
`(y, m, d)`, for y ≥ 1. -/
def jsDay (y m d : Nat) : Nat := (dayNumber y m d + 3) % 7

example : jsDay 2024 0 1 = 1 := by decide
example : jsDay 1970 0 1 = 4 := by decide
example : jsDay 2024 11 25 = 3 := by decide

/-- `weekdayIndexMonFirst`: JS weekday (Sunday = 0) to Monday-first offset. -/
def weekdayIndexMonFirst (d : Nat) : Nat := if d = 0 then 6 else d - 1

/-- `buildDaysGrid(base)`: leading `null`s up to the Monday-first weekday of
the 1st, then the day numbers `1 … daysInMonth`, then trailing `null`s padding
the length to a multiple of 7 (the source's `while (out.length % 7 !== 0)`
loop is embedded as the closed-form padding count). -/
def buildDaysGrid (base : Instant) : List (Option Nat) :=
  let first := DateUtils.startOfMonth base
  let dim := (DateUtils.endOfMonth base).day
  let startOffset := weekdayIndexMonFirst (jsDay first.year first.month first.day)
  List.replicate startOffset none
    ++ (List.range dim).map (fun i => some (i + 1))
    ++ List.replicate ((7 - (startOffset + dim) % 7) % 7) none

/-- The `valueAs` prop: how the committed value is stored in the form. -/
inductive ValueAs where
  | iso
  | date
deriving DecidableEq, Repr

/-- Calendar vs. month/year view (`ViewMode`). -/
inductive ViewMode where
  | date
  | monthYear
deriving DecidableEq, Repr

/-- The configuration props of `RHFDateTimePicker` that the engine reads,
fixed for the life of a session. -/
structure Config where
  minDate : Option Instant := none
  maxDate : Option Instant := none
  disabledDates : Instant → Bool := fun _ => false
  minuteStep : Nat := 5
  valueAs : ValueAs := .date
  requireTime : Bool := true

/-- `rangeObj`: the `DateRange` assembled from the `minDate`/`maxDate` props. -/
def Config.rangeObj (cfg : Config) : DateRange := ⟨cfg.minDate, cfg.maxDate⟩

/-- `isDateTimeDisabled(dt)`: `!DateUtils.isDateInRange(dt, rangeObj, true)`. -/
def isDateTimeDisabled (cfg : Config) (dt : Instant) : Bool :=
  !(DateUtils.isDateInRange dt cfg.rangeObj true)

/-- `isSameDay(a, b)`: equality of the year/month/day fields. -/
def isSameDay (a b : Instant) : Bool :=
  a.year = b.year && a.month = b.month && a.day = b.day

/-- `roundUpToStep(minute, step)`: `Math.min(59, Math.ceil(minute / step) * step)`;
for naturals the ceiling is `(minute + step - 1) / step`. -/
def roundUpToStep (minute step : Nat) : Nat :=
  min 59 (((minute + step - 1) / step) * step)

/-- The record returned by `getLowerBoundForDraft`. -/
structure LowerBound where
  minHour : Nat
  minMinuteStepAligned : Nat
deriving DecidableEq, Repr

/-- `getLowerBoundForDraft()`: when the draft day equals `minDate`'s day, the
hour floor is `minDate`'s hour and the minute floor is `minDate`'s minute
rounded up to the step. -/
def getLowerBoundForDraft (cfg : Config) (draft : Instant) : Option LowerBound :=
  match cfg.minDate with
  | none => none
  | some mn =>
      if isSameDay draft mn then
        some ⟨mn.hour, roundUpToStep mn.minute cfg.minuteStep⟩
      else none

/-- `isMinuteDisabled(minute)` for the current draft: blocked below the
step-aligned floor in the minimum hour, otherwise the date-time probe. -/
def isMinuteDisabled (cfg : Config) (draft : Instant) (minute : Nat) : Bool :=
  let blocked :=
    match getLowerBoundForDraft cfg draft with
    | some lower =>
        draft.hour = lower.minHour && decide (minute < lower.minMinuteStepAligned)
    | none => false
  if blocked then true
  else isDateTimeDisabled cfg ⟨draft.year, draft.month, draft.day, draft.hour, minute⟩

/-- The generic branch of `isHourCompletelyDisabled`: no minute-grid point of
the hour passes `isDateTimeDisabled`. -/
def noOpenMinuteInHour (cfg : Config) (draft : Instant) (hour : Nat) : Bool :=
  !(List.range (60 / cfg.minuteStep)).any (fun i =>
    !isDateTimeDisabled cfg
      ⟨draft.year, draft.month, draft.day, hour, i * cfg.minuteStep⟩)

/-- `isHourCompletelyDisabled(hour)` for the current draft day. -/
def isHourCompletelyDisabled (cfg : Config) (draft : Instant) (hour : Nat) : Bool :=
  match getLowerBoundForDraft cfg draft with
  | some lower =>
      if hour < lower.minHour then true
      else if hour = lower.minHour then
        if 59 < lower.minMinuteStepAligned then true
        else
          !(List.range (60 / cfg.minuteStep)).any (fun i =>
            let m := i * cfg.minuteStep
            decide (lower.minMinuteStepAligned ≤ m) &&
              !isDateTimeDisabled cfg ⟨draft.year, draft.month, draft.day, hour, m⟩)
      else noOpenMinuteInHour cfg draft hour
  | none => noOpenMinuteInHour cfg draft hour

/-- `isMonthDisabled(y, m0)` of the component: the month lies entirely before
`minDate`'s day or entirely after `maxDate`'s day. -/
def isMonthDisabled (cfg : Config) (y m0 : Nat) : Bool :=
  let first : Instant := ⟨y, m0, 1, 0, 0⟩
  let last : Instant := ⟨y, m0, daysInMonth y m0, 0, 0⟩
  let beforeMin :=
    match cfg.minDate with
    | some mn =>
        decide ((DateUtils.stripTime last).timeKey < (DateUtils.stripTime mn).timeKey)
    | none => false
  let afterMax :=
    match cfg.maxDate with
    | some mx =>
        decide ((DateUtils.stripTime mx).timeKey < (DateUtils.stripTime first).timeKey)
    | none => false
  beforeMin || afterMax

/-- `canNavigatePrev`: last day of the previous displayed month is on or after
`minDate`'s day. -/
def canNavigatePrev (cfg : Config) (displayDate : Instant) : Bool :=
  match cfg.minDate with
  | none => true
  | some mn =>
      let prevLast := DateUtils.endOfMonth (DateUtils.addMonths1 displayDate false)
      decide ((DateUtils.stripTime mn).timeKey ≤ prevLast.timeKey)

/-- `canNavigateNext`: first day of the next displayed month is on or before
`maxDate`'s day. -/
def canNavigateNext (cfg : Config) (displayDate : Instant) : Bool :=
  match cfg.maxDate with
  | none => true
  | some mx =>
      let nextFirst := DateUtils.startOfMonth (DateUtils.addMonths1 displayDate true)
      decide (nextFirst.timeKey ≤ (DateUtils.stripTime mx).timeKey)

/-- The component's mutable state: the `useState` hooks (`open`, `view`,
`displayDate`, `draft`, `picked`, `hourTouched`, `minuteTouched`) together
with `committed`, the decoded view of the externally stored form value
(`parseToDate(field.value)`; the `valueAs` encoding round-trips by the codec
theorems below, so the decoded view is the faithful state of the store). -/
structure PickerState where
  isOpen : Bool
  view : ViewMode
  displayDate : Instant
  draft : Instant
  pickedDate : Bool
  pickedTime : Bool
  hourTouched : Bool
  minuteTouched : Bool
  committed : Option Instant
deriving DecidableEq, Repr

/-- `commit(d)` as a transformation of the stored value: `undefined` clears,
an out-of-range candidate is a no-op, otherwise the candidate is stored. -/
def commitValue (cfg : Config) (d : Option Instant) (committed : Option Instant) :
    Option Instant :=
  match d with
  | none => none
  | some d =>
      if DateUtils.isDateInRange d cfg.rangeObj true then some d else committed

/-- The seed base used on open and on reset: the committed value, else
`max(Date.now(), minDate.getTime())`, else `Date.now()`. -/
def seedBase (cfg : Config) (now : Instant) (committed : Option Instant) : Instant :=
  match committed with
  | some v => v
  | none =>
      match cfg.minDate with
      | some mn => if now.timeKey ≤ mn.timeKey then mn else now
      | none => now

/-- The draft seeded from a base instant: same fields with the minute floored
to the active step. -/
def seedDraft (cfg : Config) (base : Instant) : Instant :=
  ⟨base.year, base.month, base.day, base.hour, base.minute / cfg.minuteStep * cfg.minuteStep⟩

/-- The open-synchronisation `useEffect`: seed `displayDate`, `draft`, the
`picked` flags and both touched flags from the committed value / `minDate` /
now. -/
def seedState (cfg : Config) (now : Instant) (s : PickerState) : PickerState :=
  let base := seedBase cfg now s.committed
  let has := s.committed.isSome
  { s with
    displayDate := DateUtils.startOfMonth base
    draft := seedDraft cfg base
    pickedDate := has
    pickedTime := has
    hourTouched := has
    minuteTouched := has }

/-- `resetFromSelected()`: like the open effect but leaving `hourTouched` and
`minuteTouched` untouched. -/
def resetFromSelected (cfg : Config) (now : Instant) (s : PickerState) : PickerState :=
  let base := seedBase cfg now s.committed
  let has := s.committed.isSome
  { s with
    displayDate := DateUtils.startOfMonth base
    draft := seedDraft cfg base
    pickedDate := has
    pickedTime := has }

/-- The user interactions the rendered component can deliver to the engine.
`now` parameters carry the wall clock reads (`Date.now()`) that the
corresponding handlers perform. -/
inductive Event where
  | openPicker (now : Instant)
  | closePicker (now : Instant)
  | toggleView
  | navPrev
  | navNext
  | pickDay (d : Nat)
  | pickHour (h : Nat)
  | pickMinute (m : Nat)
  | monthChange (m0 : Nat)
  | yearChange (y : Nat)
  | clear (now : Instant)

/-- One synchronous transition of the picker: the event's handler as the
component runs it, including the guards of the rendered UI (a click can only
fire on a rendered, non-disabled cell) and the re-seeding effect that follows
every write of the form value while the popover is open. -/
def step (cfg : Config) (e : Event) (s : PickerState) : PickerState :=
  match e with
  | .openPicker now =>
      if s.isOpen then s else seedState cfg now { s with isOpen := true }
  | .closePicker now =>
      if !s.isOpen then s
      else
        let incomplete := cfg.requireTime && s.pickedDate && !s.pickedTime
        let s1 := if incomplete then resetFromSelected cfg now s else s
        { s1 with isOpen := false }
  | .toggleView =>
      if !s.isOpen then s
      else { s with view := if s.view = .date then .monthYear else .date }
  | .navPrev =>
      if !s.isOpen || !(s.view = .date) || !canNavigatePrev cfg s.displayDate then s
      else { s with displayDate := DateUtils.addMonths1 s.displayDate false }
  | .navNext =>
      if !s.isOpen || !(s.view = .date) || !canNavigateNext cfg s.displayDate then s
      else { s with displayDate := DateUtils.addMonths1 s.displayDate true }
  | .pickDay d =>
      if !s.isOpen || !(s.view = .date) then s
      else if !(1 ≤ d ∧ d ≤ daysInMonth s.displayDate.year s.displayDate.month) then s
      else if DateUtils.isDayDisabled ⟨s.displayDate.year, s.displayDate.month, d, 0, 0⟩
          cfg.rangeObj cfg.disabledDates then s
      else
        let vis := jsDate s.displayDate.year s.displayDate.month
          (NumberUtils.clamp d 1 31) 0 0
        { s with
          displayDate := DateUtils.startOfMonth vis
          draft := vis
          pickedDate := true
          pickedTime := false
          hourTouched := false
          minuteTouched := false }
  | .pickHour h =>
      if !s.isOpen || !(h < 24) then s
      else if isHourCompletelyDisabled cfg s.draft h then s
      else
        let hh := NumberUtils.clamp h 0 23
        let next : Instant := ⟨s.draft.year, s.draft.month, s.draft.day, hh, 0⟩
        if isDateTimeDisabled cfg next then s
        else
          { s with
            draft := next
            pickedDate := true
            pickedTime := false
            hourTouched := true
            minuteTouched := false }
  | .pickMinute m =>
      if !s.isOpen then s
      else if !(m % cfg.minuteStep = 0 ∧ m / cfg.minuteStep < 60 / cfg.minuteStep) then s
      else if isMinuteDisabled cfg s.draft m then s
      else
        let mm := NumberUtils.clamp m 0 59
        let next : Instant := ⟨s.draft.year, s.draft.month, s.draft.day, s.draft.hour, mm⟩
        if isDateTimeDisabled cfg next then s
        else
          let s1 :=
            { s with
              draft := next
              pickedDate := true
              pickedTime := true
              minuteTouched := true
              committed := commitValue cfg (some next) s.committed }
          -- the form value was written, so the open effect re-seeds; the seed
          -- base is the new committed value, so the clock read is unused
          seedState cfg next s1
  | .monthChange m0 =>
      if !s.isOpen || !(s.view = .monthYear) || !(m0 < 12) then s
      else if !DateUtils.isMonthInRange s.displayDate.year m0 cfg.rangeObj then s
      else if isMonthDisabled cfg s.displayDate.year m0 then s
      else
        let next : Instant := ⟨s.displayDate.year, m0, 1, 0, 0⟩
        { s with
          displayDate := DateUtils.startOfMonth next
          draft := jsDate next.year next.month s.draft.day s.draft.hour s.draft.minute
          view := .date }
  | .yearChange y =>
      if !s.isOpen || !(s.view = .monthYear) then s
      else if !DateUtils.isYearInRange y cfg.rangeObj then s
      else
        let next : Instant := ⟨y, s.displayDate.month, 1, 0, 0⟩
        { s with
          displayDate := DateUtils.startOfMonth next
          draft := jsDate next.year next.month s.draft.day s.draft.hour s.draft.minute }
  | .clear now =>
      if !s.committed.isSome then s
      else
        let s1 := { s with committed := commitValue cfg none s.committed }
        if s1.isOpen then seedState cfg now s1 else s1

/-- Folding `step` over a list of events: the reachable-state semantics. -/
def run (cfg : Config) (events : List Event) (s : PickerState) : PickerState :=
  events.foldl (fun s e => step cfg e s) s

/-! ## The value codec

Strings are modelled as lists of character codes.  `Date.prototype.toISOString`
of an engine-constructed instant (seconds and milliseconds zero) produces
`YYYY-MM-DDTHH:MM:00.000Z`; the local timezone offset is taken to be zero, so
the calendar fields appear unchanged in the string (the round-trip through the
UTC epoch is offset-independent either way). -/

/-- The two digit codes of `NumberUtils.pad2(n)` for `n ≤ 99`. -/
def pad2Codes (n : Nat) : List Nat := [48 + n / 10, 48 + n % 10]

/-- The four digit codes of a ≤ 4-digit year as printed by `toISOString`. -/
def pad4Codes (n : Nat) : List Nat :=
  [48 + n / 1000, 48 + n / 100 % 10, 48 + n / 10 % 10, 48 + n % 10]

/-- `d.toISOString()` of an engine-constructed `Date`:
`YYYY-MM-DDTHH:MM:00.000Z` as character codes (45 `-`, 84 `T`, 58 `:`,
46 `.`, 90 `Z`, 48 `0`). -/
def toISOCodes (v : Instant) : List Nat :=
  pad4Codes v.year ++ [45] ++ pad2Codes (v.month + 1) ++ [45] ++ pad2Codes v.day
    ++ [84] ++ pad2Codes v.hour ++ [58] ++ pad2Codes v.minute
    ++ [58, 48, 48, 46, 48, 48, 48, 90]

/-- A decimal digit code, or `none`. -/
def digitOf (c : Nat) : Option Nat :=
  if 48 ≤ c ∧ c ≤ 57 then some (c - 48) else none

/-- `new Date(string)` on the ISO grammar that `toISOString` emits: parse the
fixed-shape `YYYY-MM-DDTHH:MM:SS.mmmZ` string, rejecting (as JS does, with an
invalid date) out-of-range calendar components.  Other string shapes accepted
by JS `Date` parsing are outside the engine's own output and are not
modelled. -/
def parseISOCodes (s : List Nat) : Option Instant :=
  match s with
  | [y1, y2, y3, y4, 45, mo1, mo2, 45, d1, d2, 84, h1, h2, 58, mi1, mi2,
     58, s1, s2, 46, ms1, ms2, ms3, 90] =>
      match digitOf y1, digitOf y2, digitOf y3, digitOf y4, digitOf mo1,
        digitOf mo2, digitOf d1, digitOf d2, digitOf h1, digitOf h2,
        digitOf mi1, digitOf mi2, digitOf s1, digitOf s2, digitOf ms1,
        digitOf ms2, digitOf ms3 with
      | some a, some b, some c, some d, some m1, some m2, some e, some f,
        some g, some h, some i, some j, some k, some l, some _, some _, some _ =>
          let year := ((a * 10 + b) * 10 + c) * 10 + d
          let monthOne := m1 * 10 + m2
          let day := e * 10 + f
          let hour := g * 10 + h
          let minute := i * 10 + j
          let sec := k * 10 + l
          if 1 ≤ monthOne ∧ monthOne ≤ 12 ∧ 1 ≤ day ∧
              day ≤ daysInMonth year (monthOne - 1) ∧ hour ≤ 23 ∧
              minute ≤ 59 ∧ sec ≤ 59 then
            some ⟨year, monthOne - 1, day, hour, minute⟩
          else none
      | _, _, _, _, _, _, _, _, _, _, _, _, _, _, _, _, _ => none
  | _ => none

/-- The value stored in the form: `undefined`, a `Date`, a string, or some
other (unparsable) value. -/
inductive FormValue where
  | undef
  | date (d : Instant)
  | str (s : List Nat)
  | other
deriving DecidableEq

/-- `parseToDate(v)`: `undefined`/falsy and non-`Date`, non-string values give
`null`; a `Date` is returned as is (an engine value is never `NaN`); a string
goes through `new Date(string)`. -/
def parseToDate : FormValue → Option Instant
  | .undef => none
  | .date d => some d
  | .str [] => none
  | .str s => parseISOCodes s
  | .other => none

/-- The write side of `commit`: `valueAs === "iso" ? d.toISOString() : d`. -/
def encodeValue (valueAs : ValueAs) (d : Instant) : FormValue :=
  match valueAs with
  | .iso => .str (toISOCodes d)
  | .date => .date d

/-! ## Spec-side formulations used by the refinement claims -/

/-- The date-only comparison key of an instant: `stripTime(x).getTime()`. -/
def dayKey (x : Instant) : Nat := (DateUtils.stripTime x).timeKey

/-- Stated from the spec's words for comparison with the code: `allows` with
`dateOnly = false` compares the full instants (year through minute),
inclusively at both bounds, an absent bound being unbounded. -/
def specAllowsFullInstant (x : Instant) (r : DateRange) : Bool :=
  (match r.min with
   | none => true
   | some mn => decide (mn.timeKey ≤ x.timeKey)) &&
  (match r.max with
   | none => true
   | some mx => decide (x.timeKey ≤ mx.timeKey))

/-- Stated from the spec's words: `allows` with `dateOnly = true` compares the
midnight-truncated dates, inclusively at both bounds. -/
def specAllowsDateOnly (x : Instant) (r : DateRange) : Bool :=
  (match r.min with
   | none => true
   | some mn => decide (dayKey mn ≤ dayKey x)) &&
  (match r.max with
   | none => true
   | some mx => decide (dayKey x ≤ dayKey mx))

/-- The date-only comparison with strict bounds (what the code's
`inclusive = false` mode actually computes). -/
def specAllowsDateOnlyStrict (x : Instant) (r : DateRange) : Bool :=
  (match r.min with
   | none => true
   | some mn => decide (dayKey mn < dayKey x)) &&
  (match r.max with
   | none => true
   | some mx => decide (dayKey x < dayKey mx))

/-! ## Theorems -/

theorem not_decide_lt (a b : Nat) : (!decide (a < b)) = decide (b ≤ a) := by
  by_cases h : a < b
  · simp [h]
  · simp [h]; omega

theorem not_decide_le (a b : Nat) : (!decide (a ≤ b)) = decide (b < a) := by
  by_cases h : a ≤ b
  · simp [h]
  · simp [h]; omega

/-- C2 counterexample: the claim reads the third argument of
`DateUtils.isDateInRange` as a `dateOnly` selector and asserts that with the
flag `false` the check compares full instants inclusively; but on
`x = min = 2024-01-10 09:07` the code returns `false` (the flag is
`inclusive`, and the strict date-only comparison fails on equal days) while
the claimed full-instant inclusive check would return `true`. -/
theorem claimC2_counterexample :
    DateUtils.isDateInRange ⟨2024, 0, 10, 9, 7⟩
        ⟨some ⟨2024, 0, 10, 9, 7⟩, none⟩ false = false ∧
      specAllowsFullInstant ⟨2024, 0, 10, 9, 7⟩
        ⟨some ⟨2024, 0, 10, 9, 7⟩, none⟩ = true := by
  constructor <;> decide

/-- C2, amended: the third parameter of the range check selects inclusive
versus strict bounds, not date-only versus full-instant comparison; the
comparison is always between midnight-truncated dates.  With `inclusive =
true` the check returns `true` iff `strip(min) ≤ strip(x) ≤ strip(max)`
(absent bounds unbounded), and with `inclusive = false` the same with strict
inequalities. -/
theorem claimC2_amended_range_check (x : Instant) (r : DateRange) :
    DateUtils.isDateInRange x r true = specAllowsDateOnly x r ∧
      DateUtils.isDateInRange x r false = specAllowsDateOnlyStrict x r := by
  obtain ⟨mn, mx⟩ := r
  constructor <;>
    cases mn <;> cases mx <;>
      simp [DateUtils.isDateInRange, specAllowsDateOnly, specAllowsDateOnlyStrict,
        dayKey, not_decide_lt, not_decide_le]

theorem takeWhile_replicate_none_cons (n : Nat) (x : Nat) (t : List (Option Nat)) :
    ((List.replicate n (none : Option Nat) ++ (some x :: t)).takeWhile
      Option.isNone).length = n := by
  induction n with
  | zero => simp [List.takeWhile]
  | succ k ih => simp [List.replicate_succ, List.takeWhile, ih]

theorem filterMap_id_replicate_none (n : Nat) :
    (List.replicate n (none : Option Nat)).filterMap id = [] := by
  induction n with
  | zero => rfl
  | succ k ih => simp [List.replicate_succ, ih]

theorem filterMap_some_comp (l : List Nat) (f : Nat → Nat) :
    l.filterMap (fun i => some (f i)) = l.map f := by
  induction l with
  | nil => rfl
  | cons a t ih => simp [List.filterMap_cons, ih]

/-- C6: every cell of the built day grid is empty or a day number in
`1 … daysInMonth`; the non-empty cells are exactly `1 … daysInMonth` in order,
each once; the grid length is a multiple of 7; and the number of leading empty
cells equals the Monday-first weekday index of the first of the month. -/
theorem claimC6_days_grid (base : Instant) :
    (∀ c ∈ buildDaysGrid base, c = none ∨
        ∃ d, c = some d ∧ 1 ≤ d ∧ d ≤ daysInMonth base.year base.month) ∧
      (buildDaysGrid base).filterMap id =
        (List.range (daysInMonth base.year base.month)).map (· + 1) ∧
      (buildDaysGrid base).length % 7 = 0 ∧
      ((buildDaysGrid base).takeWhile Option.isNone).length =
        weekdayIndexMonFirst (jsDay base.year base.month 1) := by
  refine ⟨?_, ?_, ?_, ?_⟩
  · intro c hc
    simp only [buildDaysGrid, DateUtils.startOfMonth, DateUtils.endOfMonth,
      List.mem_append, List.mem_replicate, List.mem_map, List.mem_range] at hc
    rcases hc with (hc | ⟨i, hi, rfl⟩) | hc
    · exact Or.inl hc.2
    · exact Or.inr ⟨i + 1, rfl, by omega, by omega⟩
    · exact Or.inl hc.2
  · simp only [buildDaysGrid, DateUtils.startOfMonth, DateUtils.endOfMonth,
      List.filterMap_append, filterMap_id_replicate_none, List.filterMap_map,
      List.append_nil, List.nil_append, Function.comp_def, id_eq]
    exact filterMap_some_comp _ _
  · simp only [buildDaysGrid, List.length_append, List.length_replicate,
      List.length_map, List.length_range]
    omega
  · have hpos := daysInMonth_pos base.year base.month
    obtain ⟨k, hk⟩ : ∃ k, daysInMonth base.year base.month = k + 1 :=
      ⟨daysInMonth base.year base.month - 1, by omega⟩
    simp only [buildDaysGrid, DateUtils.startOfMonth, DateUtils.endOfMonth, hk,
      List.range_succ_eq_map, List.map_cons, List.cons_append, List.append_assoc]
    exact takeWhile_replicate_none_cons _ 1 _

/-- C7: `isMonthInRange` is true iff some day of the month lies between the
range bounds under the date-only comparison (absent bounds unbounded), and it
is independent of the exclusion predicate — which, when it excludes every day,
still makes `isDayDisabled` report every individual day as disabled. -/
theorem claimC7_month_open (y m0 : Nat) (r : DateRange) (_hm : m0 ≤ 11)
    (hbmin : ∀ mn, r.min = some mn → mn.valid)
    (hbmax : ∀ mx, r.max = some mx → mx.valid) :
    (DateUtils.isMonthInRange y m0 r = true ↔
      ∃ d, 1 ≤ d ∧ d ≤ daysInMonth y m0 ∧
        (∀ mn, r.min = some mn → dayKey mn ≤ dayKey ⟨y, m0, d, 0, 0⟩) ∧
        (∀ mx, r.max = some mx → dayKey ⟨y, m0, d, 0, 0⟩ ≤ dayKey mx)) ∧
    (∀ date : Instant, DateUtils.isDayDisabled date r (fun _ => true) = true) := by
  have hdimpos := daysInMonth_pos y m0
  have hdimle := daysInMonth_le y m0
  refine ⟨?_, fun date => by simp [DateUtils.isDayDisabled]⟩
  obtain ⟨omn, omx⟩ := r
  cases omn with
  | none =>
    cases omx with
    | none =>
      simp [DateUtils.isMonthInRange, dayKey, DateUtils.stripTime, Instant.timeKey]
      exact ⟨1, by omega, by omega⟩
    | some mx =>
      obtain ⟨hmxm, hmxd1, hmxd2, -, -⟩ := hbmax mx rfl
      have hmxdim := daysInMonth_le mx.year mx.month
      simp [DateUtils.isMonthInRange, dayKey, DateUtils.stripTime, Instant.timeKey]
      constructor
      · intro h
        exact ⟨1, by omega, by omega, by omega⟩
      · rintro ⟨d, h1, h2, h3⟩
        omega
  | some mn =>
    obtain ⟨hmnm, hmnd1, hmnd2, -, -⟩ := hbmin mn rfl
    have hmndim := daysInMonth_le mn.year mn.month
    cases omx with
    | none =>
      simp [DateUtils.isMonthInRange, dayKey, DateUtils.stripTime, Instant.timeKey]
      constructor
      · rintro ⟨-, h⟩
        by_cases hc : (mn.year * 12 + mn.month) * 32 + mn.day ≤ (y * 12 + m0) * 32 + 1
        · exact ⟨1, by omega, by omega, by omega⟩
        · exact ⟨mn.day, by omega, by omega, by omega⟩
      · rintro ⟨d, h1, h2, h3⟩
        omega
    | some mx =>
      obtain ⟨hmxm, hmxd1, hmxd2, -, -⟩ := hbmax mx rfl
      have hmxdim := daysInMonth_le mx.year mx.month
      simp [DateUtils.isMonthInRange, dayKey, DateUtils.stripTime, Instant.timeKey]
      constructor
      · intro h
        by_cases hc : (mn.year * 12 + mn.month) * 32 + mn.day ≤ (y * 12 + m0) * 32 + 1
        · exact ⟨1, by omega, by omega, by omega, by omega⟩
        · exact ⟨mn.day, by omega, by omega, by omega, by omega⟩
      · rintro ⟨d, h1, h2, h3, h4⟩
        omega

/-- The least multiple of `s` that is at least `m` is `(m + s - 1) / s * s`:
it is a multiple, it dominates `m`, and it is below every other such
multiple. -/
theorem ceil_mult_spec (m s : Nat) (hs : 1 ≤ s) :
    s ∣ (m + s - 1) / s * s ∧ m ≤ (m + s - 1) / s * s ∧
      ∀ k, s ∣ k → m ≤ k → (m + s - 1) / s * s ≤ k := by
  refine ⟨dvd_mul_left s _, ?_, ?_⟩
  · have hdm := Nat.div_add_mod (m + s - 1) s
    have hmod : (m + s - 1) % s < s := Nat.mod_lt _ (by omega)
    rw [Nat.mul_comm]
    omega
  · rintro k ⟨j, rfl⟩ hmk
    have hq : (m + s - 1) / s ≤ j :=
      (Nat.div_le_iff_le_mul_add_pred (by omega)).mpr (by omega)
    calc (m + s - 1) / s * s ≤ j * s := Nat.mul_le_mul_right s hq
      _ = s * j := Nat.mul_comm _ _

/-- Every rendered minute-grid point `i * s`, `i < 60 / s`, is at most
`60 - s`. -/
theorem grid_point_le (i s : Nat) (hi : i < 60 / s) :
    i * s + s ≤ 60 := by
  have h1 := Nat.div_mul_le_self 60 s
  have h2 : (i + 1) * s ≤ 60 / s * s := Nat.mul_le_mul_right s (by omega)
  have h3 : (i + 1) * s = i * s + s := by ring
  omega

/-- C10: the rounding helper returns `min(59, c)` where `c` is the least
multiple of the step that is at least the given minute — hence a value that is
always between the minute and 59; and when that least multiple exceeds 59
(next step boundary above `min`'s minute out of range), the aligned floor is
59, every rendered minute-grid point of `min`'s hour lies strictly below it,
and that hour is reported completely disabled. -/
theorem claimC10_round_up_boundary (cfg : Config) (draft mn : Instant)
    (hmin : cfg.minDate = some mn) (hst : 1 ≤ cfg.minuteStep)
    (hmm : mn.minute ≤ 59) (hsame : isSameDay draft mn = true)
    (hover : 59 < (mn.minute + cfg.minuteStep - 1) / cfg.minuteStep * cfg.minuteStep) :
    (∀ m s, m ≤ 59 → 1 ≤ s →
      (m ≤ roundUpToStep m s ∧ roundUpToStep m s ≤ 59 ∧
        ∃ c, s ∣ c ∧ m ≤ c ∧ (∀ k, s ∣ k → m ≤ k → c ≤ k) ∧
          roundUpToStep m s = Nat.min 59 c)) ∧
    roundUpToStep mn.minute cfg.minuteStep = 59 ∧
    (∀ i, i < 60 / cfg.minuteStep →
      i * cfg.minuteStep < roundUpToStep mn.minute cfg.minuteStep) ∧
    isHourCompletelyDisabled cfg draft mn.hour = true := by
  have hr59 : roundUpToStep mn.minute cfg.minuteStep = 59 := by
    unfold roundUpToStep
    omega
  have hgrid : ∀ i, i < 60 / cfg.minuteStep → i * cfg.minuteStep < 59 := by
    intro i hi
    have h1 := grid_point_le i cfg.minuteStep hi
    rcases Nat.lt_or_ge cfg.minuteStep 2 with h2 | h2
    · have h3 : cfg.minuteStep = 1 := by omega
      rw [h3] at hover
      simp only [Nat.add_sub_cancel, Nat.div_one, Nat.mul_one] at hover
      omega
    · omega
  refine ⟨?_, hr59, ?_, ?_⟩
  · intro m s hm hs
    obtain ⟨hdvd, hle, hleast⟩ := ceil_mult_spec m s hs
    refine ⟨?_, ?_, (m + s - 1) / s * s, hdvd, hle, hleast, rfl⟩
    · unfold roundUpToStep
      omega
    · unfold roundUpToStep
      omega
  · intro i hi
    rw [hr59]
    exact hgrid i hi
  · have hlb : getLowerBoundForDraft cfg draft = some ⟨mn.hour, 59⟩ := by
      simp [getLowerBoundForDraft, hmin, hsame, hr59]
    simp only [isHourCompletelyDisabled, hlb]
    rw [if_neg (Nat.lt_irrefl _), if_pos trivial, if_neg (by omega)]
    simp only [Bool.not_eq_true', List.any_eq_false, List.mem_range,
      Bool.and_eq_true, decide_eq_true_eq, not_and]
    intro i hi hge
    have := hgrid i hi
    omega

theorem isDateInRange_congr (x x' : Instant) (r : DateRange) (b : Bool)
    (h : DateUtils.stripTime x = DateUtils.stripTime x') :
    DateUtils.isDateInRange x r b = DateUtils.isDateInRange x' r b := by
  unfold DateUtils.isDateInRange
  rw [h]

/-- C4: on `min`'s day, when the draft hour equals `min`'s hour, a rendered
grid minute (a multiple of the step in `[0, 59]`) is selectable iff it is at
least the smallest multiple of the step that is `≥ min`'s minute — so that
multiple is the smallest selectable grid minute when it exists in the grid,
and every grid minute strictly below it is disabled. -/
theorem claimC4_minute_floor (cfg : Config) (draft mn : Instant)
    (hmin : cfg.minDate = some mn) (hst : 1 ≤ cfg.minuteStep)
    (hmm : mn.minute ≤ 59) (hsame : isSameDay draft mn = true)
    (hhour : draft.hour = mn.hour)
    (hrange : DateUtils.isDateInRange mn cfg.rangeObj true = true) :
    (cfg.minuteStep ∣ (mn.minute + cfg.minuteStep - 1) / cfg.minuteStep * cfg.minuteStep ∧
      mn.minute ≤ (mn.minute + cfg.minuteStep - 1) / cfg.minuteStep * cfg.minuteStep ∧
      ∀ k, cfg.minuteStep ∣ k → mn.minute ≤ k →
        (mn.minute + cfg.minuteStep - 1) / cfg.minuteStep * cfg.minuteStep ≤ k) ∧
    ∀ m, m ≤ 59 → m % cfg.minuteStep = 0 →
      (isMinuteDisabled cfg draft m = false ↔
        (mn.minute + cfg.minuteStep - 1) / cfg.minuteStep * cfg.minuteStep ≤ m) := by
  have hflds : (draft.year = mn.year ∧ draft.month = mn.month) ∧ draft.day = mn.day := by
    simpa [isSameDay] using hsame
  obtain ⟨⟨hy, hmo⟩, hd⟩ := hflds
  have hceil := ceil_mult_spec mn.minute cfg.minuteStep hst
  refine ⟨hceil, ?_⟩
  intro m hm hmod
  have hprobe : DateUtils.isDateInRange
      ⟨draft.year, draft.month, draft.day, mn.hour, m⟩ cfg.rangeObj true
        = DateUtils.isDateInRange mn cfg.rangeObj true :=
    isDateInRange_congr _ _ _ _ (by simp [DateUtils.stripTime, hy, hmo, hd])
  have hlb : getLowerBoundForDraft cfg draft
      = some ⟨mn.hour, roundUpToStep mn.minute cfg.minuteStep⟩ := by
    simp [getLowerBoundForDraft, hmin, hsame]
  simp only [isMinuteDisabled, hlb, hhour, isDateTimeDisabled, hprobe, hrange,
    decide_True, Bool.true_and, Bool.not_true]
  unfold roundUpToStep
  have hcases : (mn.minute + cfg.minuteStep - 1) / cfg.minuteStep * cfg.minuteStep ≤ 59 ∨
      m < 59 := by
    rcases Nat.lt_or_ge m 59 with h | h
    · exact Or.inr h
    · obtain rfl : m = 59 := by omega
      have hdvd : cfg.minuteStep ∣ 59 := Nat.dvd_of_mod_eq_zero hmod
      have p59 : Nat.Prime 59 := by norm_num
      rcases Nat.Prime.eq_one_or_self_of_dvd p59 _ hdvd with h1 | h1
      · rw [h1]
        simp only [Nat.add_sub_cancel, Nat.div_one, Nat.mul_one]
        omega
      · rw [h1]
        omega
  by_cases hblock : m < min 59 ((mn.minute + cfg.minuteStep - 1) / cfg.minuteStep * cfg.minuteStep)
  · simp [hblock]
    omega
  · simp [hblock]
    omega




theorem digitOf_add (k : Nat) (h : k ≤ 9) : digitOf (48 + k) = some k := by
  unfold digitOf
  rw [if_pos (by omega)]
  simp only [Option.some.injEq]
  omega

/-- C8: for every valid committed instant (seconds zero, four-digit year),
decoding the stored form value returns the instant itself, in both the
normalized (`valueAs = "date"`) and the textual (`valueAs = "iso"`) encoding
modes. -/
theorem claimC8_codec_round_trip (v : Instant) (va : ValueAs)
    (hv : v.valid) (hy : v.year ≤ 9999) :
    parseToDate (encodeValue va v) = some v := by
  obtain ⟨yy, mo, dd, hh, mi⟩ := v
  obtain ⟨hmo, hd1, hd2, hh23, hmi⟩ := hv
  simp only at hmo hd1 hd2 hh23 hmi hy
  have hdim := daysInMonth_le yy mo
  cases va with
  | date => rfl
  | iso =>
    show parseToDate (.str (toISOCodes ⟨yy, mo, dd, hh, mi⟩)) = _
    simp only [toISOCodes, pad4Codes, pad2Codes, List.cons_append, List.nil_append]
    simp only [parseToDate, parseISOCodes]
    rw [digitOf_add _ (by omega), digitOf_add _ (by omega), digitOf_add _ (by omega),
      digitOf_add _ (by omega), digitOf_add _ (by omega), digitOf_add _ (by omega),
      digitOf_add _ (by omega), digitOf_add _ (by omega), digitOf_add _ (by omega),
      digitOf_add _ (by omega), digitOf_add _ (by omega), digitOf_add _ (by omega)]
    have h0 : digitOf 48 = some 0 := by decide
    rw [h0]
    simp only
    have hyear : ((yy / 1000 * 10 + yy / 100 % 10) * 10 + yy / 10 % 10) * 10 + yy % 10
        = yy := by omega
    have hmonth : (mo + 1) / 10 * 10 + (mo + 1) % 10 = mo + 1 := by omega
    have hday : dd / 10 * 10 + dd % 10 = dd := by omega
    have hhr : hh / 10 * 10 + hh % 10 = hh := by omega
    have hmin : mi / 10 * 10 + mi % 10 = mi := by omega
    rw [hyear, hmonth, hday, hhr, hmin]
    simp only [Nat.add_sub_cancel]
    rw [if_pos (by exact ⟨by omega, by omega, by omega, by omega, by omega, by omega, by omega⟩)]

/-- C9: opening the picker seeds the draft from, in priority order, the
committed value, else `max(now, min)` when a minimum exists, else `now`, with
the seeded minute floored to a multiple of the step; the picked-date,
picked-time and touched flags become true exactly when a committed value
existed; the committed value itself is unchanged. -/
theorem claimC9_open_seeding (cfg : Config) (s : PickerState) (now : Instant)
    (hclosed : s.isOpen = false) :
    ((step cfg (.openPicker now) s).committed = s.committed) ∧
    ((step cfg (.openPicker now) s).isOpen = true) ∧
    (∀ v, s.committed = some v →
      (step cfg (.openPicker now) s).draft =
        ⟨v.year, v.month, v.day, v.hour, v.minute / cfg.minuteStep * cfg.minuteStep⟩) ∧
    (s.committed = none → ∀ mn, cfg.minDate = some mn →
      (step cfg (.openPicker now) s).draft =
        (if now.timeKey ≤ mn.timeKey then
          ⟨mn.year, mn.month, mn.day, mn.hour, mn.minute / cfg.minuteStep * cfg.minuteStep⟩
        else
          ⟨now.year, now.month, now.day, now.hour, now.minute / cfg.minuteStep * cfg.minuteStep⟩)) ∧
    (s.committed = none → cfg.minDate = none →
      (step cfg (.openPicker now) s).draft =
        ⟨now.year, now.month, now.day, now.hour, now.minute / cfg.minuteStep * cfg.minuteStep⟩) ∧
    ((step cfg (.openPicker now) s).pickedDate = s.committed.isSome) ∧
    ((step cfg (.openPicker now) s).pickedTime = s.committed.isSome) ∧
    ((step cfg (.openPicker now) s).hourTouched = s.committed.isSome) ∧
    ((step cfg (.openPicker now) s).minuteTouched = s.committed.isSome) := by
  refine ⟨?_, ?_, ?_, ?_, ?_, ?_, ?_, ?_, ?_⟩
  · simp [step, hclosed, seedState]
  · simp [step, hclosed, seedState]
  · intro v hv
    simp [step, hclosed, seedState, seedBase, seedDraft, hv]
  · intro h mn hmn
    by_cases hcmp : now.timeKey ≤ mn.timeKey
    · simp [step, hclosed, seedState, seedBase, seedDraft, h, hmn, hcmp]
    · simp [step, hclosed, seedState, seedBase, seedDraft, h, hmn, hcmp]
  · intro h hmn
    simp [step, hclosed, seedState, seedBase, seedDraft, h, hmn]
  · simp [step, hclosed, seedState]
  · simp [step, hclosed, seedState]
  · simp [step, hclosed, seedState]
  · simp [step, hclosed, seedState]

/-- C5: closing the picker while a date is chosen but the time is not yet
confirmed (date-time mode) leaves the committed value unchanged, and the
draft and picked flags are reseeded from the committed value (or from
`max(now, min)` / `now` when it is absent); the touched flags and everything
external are untouched. -/
theorem claimC5_close_incomplete (cfg : Config) (s : PickerState) (now : Instant)
    (hreq : cfg.requireTime = true) (hopen : s.isOpen = true)
    (hd : s.pickedDate = true) (ht : s.pickedTime = false) :
    ((step cfg (.closePicker now) s).committed = s.committed) ∧
    ((step cfg (.closePicker now) s).isOpen = false) ∧
    ((step cfg (.closePicker now) s).hourTouched = s.hourTouched) ∧
    ((step cfg (.closePicker now) s).minuteTouched = s.minuteTouched) ∧
    ((step cfg (.closePicker now) s).pickedDate = s.committed.isSome) ∧
    ((step cfg (.closePicker now) s).pickedTime = s.committed.isSome) ∧
    (∀ v, s.committed = some v →
      (step cfg (.closePicker now) s).draft =
        ⟨v.year, v.month, v.day, v.hour, v.minute / cfg.minuteStep * cfg.minuteStep⟩) ∧
    (s.committed = none → ∀ mn, cfg.minDate = some mn →
      (step cfg (.closePicker now) s).draft =
        (if now.timeKey ≤ mn.timeKey then
          ⟨mn.year, mn.month, mn.day, mn.hour, mn.minute / cfg.minuteStep * cfg.minuteStep⟩
        else
          ⟨now.year, now.month, now.day, now.hour, now.minute / cfg.minuteStep * cfg.minuteStep⟩)) ∧
    (s.committed = none → cfg.minDate = none →
      (step cfg (.closePicker now) s).draft =
        ⟨now.year, now.month, now.day, now.hour, now.minute / cfg.minuteStep * cfg.minuteStep⟩) := by
  refine ⟨?_, ?_, ?_, ?_, ?_, ?_, ?_, ?_, ?_⟩
  · simp [step, hopen, hreq, hd, ht, resetFromSelected]
  · simp [step, hopen, hreq, hd, ht, resetFromSelected]
  · simp [step, hopen, hreq, hd, ht, resetFromSelected]
  · simp [step, hopen, hreq, hd, ht, resetFromSelected]
  · simp [step, hopen, hreq, hd, ht, resetFromSelected]
  · simp [step, hopen, hreq, hd, ht, resetFromSelected]
  · intro v hv
    simp [step, hopen, hreq, hd, ht, resetFromSelected, seedBase, seedDraft, hv]
  · intro h mn hmn
    by_cases hcmp : now.timeKey ≤ mn.timeKey
    · simp [step, hopen, hreq, hd, ht, resetFromSelected, seedBase, seedDraft, h, hmn, hcmp]
    · simp [step, hopen, hreq, hd, ht, resetFromSelected, seedBase, seedDraft, h, hmn, hcmp]
  · intro h hmn
    simp [step, hopen, hreq, hd, ht, resetFromSelected, seedBase, seedDraft, h, hmn]

/-- How one transition can change the stored value: not at all; to `none` by
the clear action; or to an in-range instant by a minute pick. -/
theorem step_committed_cases (cfg : Config) (e : Event) (s : PickerState) :
    (step cfg e s).committed = s.committed ∨
    ((step cfg e s).committed = none ∧ ∃ now, e = .clear now) ∨
    (∃ m, e = .pickMinute m ∧ ∃ v, (step cfg e s).committed = some v ∧
      DateUtils.isDateInRange v cfg.rangeObj true = true) := by
  cases e with
  | openPicker now =>
    left
    simp only [step]
    split
    · rfl
    · simp [seedState]
  | closePicker now =>
    left
    simp only [step]
    split
    · rfl
    · split
      · simp [resetFromSelected]
      · simp
  | toggleView =>
    left
    simp only [step]
    split <;> rfl
  | navPrev =>
    left
    simp only [step]
    split <;> rfl
  | navNext =>
    left
    simp only [step]
    split <;> rfl
  | pickDay d =>
    left
    simp only [step]
    split
    · rfl
    · split
      · rfl
      · split <;> rfl
  | pickHour h =>
    left
    simp only [step]
    split
    · rfl
    · split
      · rfl
      · split <;> rfl
  | pickMinute m =>
    simp only [step]
    split
    · left; rfl
    · split
      · left; rfl
      · split
        · left; rfl
        · split
          · left; rfl
          · rename_i hguard hmdis hgrid hdis
            right; right
            refine ⟨m, rfl, ?_⟩
            have hin : DateUtils.isDateInRange
                ⟨s.draft.year, s.draft.month, s.draft.day, s.draft.hour,
                  NumberUtils.clamp m 0 59⟩ cfg.rangeObj true = true := by
              revert hdis
              unfold isDateTimeDisabled
              cases hx : DateUtils.isDateInRange
                ⟨s.draft.year, s.draft.month, s.draft.day, s.draft.hour,
                  NumberUtils.clamp m 0 59⟩ cfg.rangeObj true
              · intro hc
                simp at hc
              · intro _
                rfl
            refine ⟨_, ?_, hin⟩
            simp [seedState, commitValue, hin]
  | monthChange m0 =>
    left
    simp only [step]
    split
    · rfl
    · split
      · rfl
      · split <;> rfl
  | yearChange y =>
    left
    simp only [step]
    split
    · rfl
    · split <;> rfl
  | clear now =>
    simp only [step]
    split
    · left; rfl
    · right; left
      refine ⟨?_, now, rfl⟩
      split
      · simp [seedState, commitValue, seedBase, seedDraft]
      · simp [commitValue]

/-- C1: over any event sequence from a state whose stored value passes the
engine's range check when present, the stored value still passes the range
check whenever present; the commit function is a no-op on a candidate that
fails the range check; and a minute pick whose candidate instant is rejected
leaves the whole state (draft included) unchanged with no commit. -/
theorem claimC1_commit_invariant (cfg : Config) (events : List Event)
    (s0 : PickerState)
    (h0 : ∀ v, s0.committed = some v →
      DateUtils.isDateInRange v cfg.rangeObj true = true) :
    (∀ v, (run cfg events s0).committed = some v →
      DateUtils.isDateInRange v cfg.rangeObj true = true) ∧
    (∀ (d : Instant) (c : Option Instant),
      DateUtils.isDateInRange d cfg.rangeObj true = false →
      commitValue cfg (some d) c = c) ∧
    (∀ (m : Nat) (s : PickerState), m ≤ 59 →
      isDateTimeDisabled cfg
        ⟨s.draft.year, s.draft.month, s.draft.day, s.draft.hour,
          NumberUtils.clamp m 0 59⟩ = true →
      step cfg (.pickMinute m) s = s) := by
  refine ⟨?_, ?_, ?_⟩
  · induction events generalizing s0 with
    | nil => exact h0
    | cons e tl ih =>
      intro v hv
      refine ih (step cfg e s0) ?_ v hv
      intro w hw
      rcases step_committed_cases cfg e s0 with hc | ⟨hc, -⟩ | ⟨m, -, u, hu, hur⟩
      · rw [hc] at hw
        exact h0 w hw
      · rw [hc] at hw
        cases hw
      · rw [hu] at hw
        cases hw
        exact hur
  · intro d c hd
    simp [commitValue, hd]
  · intro m s hm hdis
    have hclamp : NumberUtils.clamp m 0 59 = m := by
      simp [NumberUtils.clamp]
      omega
    rw [hclamp] at hdis
    simp only [step]
    split
    · rfl
    · split
      · rfl
      · split
        · rfl
        · rename_i hmdis
          exfalso
          revert hmdis
          simp only [isMinuteDisabled, Bool.not_eq_true]
          split
          · intro hc
            simp at hc
          · intro hc
            rw [hdis] at hc
            cases hc

/-- A concrete open session in date-time mode: day 15 picked, hour 9 and
minute 30 standing in the draft, no committed value, default configuration. -/
def c3State : PickerState :=
  { isOpen := true
    view := .date
    displayDate := ⟨2024, 0, 1, 0, 0⟩
    draft := ⟨2024, 0, 15, 9, 30⟩
    pickedDate := true
    pickedTime := false
    hourTouched := true
    minuteTouched := false
    committed := none }

/-- C3 counterexample: picking hour 10 in `c3State` leaves the committed
value unchanged but also resets the draft's minute from 30 to 0 — the
transition does not merely update the draft's hour and clear the
minute-chosen flag, refuting the claim's frame condition as stated. -/
theorem claimC3_counterexample :
    (step { } (.pickHour 10) c3State).committed = c3State.committed ∧
      c3State.draft.minute = 30 ∧
      (step { } (.pickHour 10) c3State).draft.minute = 0 := by
  refine ⟨rfl, rfl, ?_⟩
  decide

/-- C3, amended: in date-time mode the pick-hour transition never changes the
committed value; it either leaves the state unchanged (rejected) or sets the
draft's hour, resets the draft's minute to 0, marks the hour chosen and
clears the minute-chosen flag; and the only event that can change the stored
value to a new (non-absent) value is a minute pick. -/
theorem claimC3_amended_hour_no_commit (cfg : Config) (s : PickerState)
    (h : Nat) (_hreq : cfg.requireTime = true) :
    ((step cfg (.pickHour h) s).committed = s.committed) ∧
    (step cfg (.pickHour h) s = s ∨
      step cfg (.pickHour h) s =
        { s with
          draft := ⟨s.draft.year, s.draft.month, s.draft.day,
            NumberUtils.clamp h 0 23, 0⟩
          pickedDate := true
          pickedTime := false
          hourTouched := true
          minuteTouched := false }) ∧
    (∀ e, (step cfg e s).committed ≠ s.committed →
      (∃ m, e = .pickMinute m) ∨ (step cfg e s).committed = none) := by
  refine ⟨?_, ?_, ?_⟩
  · rcases step_committed_cases cfg (.pickHour h) s with hc | ⟨-, now, hc⟩ | ⟨m, hc, -⟩
    · exact hc
    · cases hc
    · cases hc
  · simp only [step]
    split
    · exact Or.inl rfl
    · split
      · exact Or.inl rfl
      · split
        · exact Or.inl rfl
        · exact Or.inr rfl
  · intro e he
    rcases step_committed_cases cfg e s with hc | ⟨hc, -⟩ | ⟨m, hm, -⟩
    · exact absurd hc he
    · exact Or.inr hc
    · exact Or.inl ⟨m, hm⟩

/-! ## Witnesses: concrete instantiations of the hypothesis-bearing theorems -/

/-- A closed picker state holding the committed value 2024-01-10 09:07. -/
def wStateCommitted : PickerState :=
  { isOpen := false
    view := .date
    displayDate := ⟨2024, 0, 1, 0, 0⟩
    draft := ⟨2024, 0, 1, 0, 0⟩
    pickedDate := true
    pickedTime := true
    hourTouched := true
    minuteTouched := true
    committed := some ⟨2024, 0, 10, 9, 7⟩ }

theorem claimC1_commit_invariant_witness :
    commitValue
      { minDate := some ⟨2024, 0, 10, 9, 7⟩, maxDate := some ⟨2024, 0, 20, 0, 0⟩ }
      (some ⟨2023, 0, 1, 0, 0⟩) none = none :=
  (claimC1_commit_invariant
    { minDate := some ⟨2024, 0, 10, 9, 7⟩, maxDate := some ⟨2024, 0, 20, 0, 0⟩ }
    [] { wStateCommitted with committed := none }
    (fun _ hv => nomatch hv)).2.1 ⟨2023, 0, 1, 0, 0⟩ none (by decide)

theorem claimC3_amended_hour_no_commit_witness :
    (step { } (.pickHour 10) c3State).committed = c3State.committed :=
  (claimC3_amended_hour_no_commit { } c3State 10 rfl).1

/-- The configuration of the spec's minute-step scenario: range
2024-01-10 09:07 to 2024-01-20, step 15. -/
def wCfgStep15 : Config :=
  { minDate := some ⟨2024, 0, 10, 9, 7⟩
    maxDate := some ⟨2024, 0, 20, 0, 0⟩
    minuteStep := 15 }

theorem claimC4_minute_floor_witness :
    isMinuteDisabled wCfgStep15 ⟨2024, 0, 10, 9, 0⟩ 15 = false ↔
      (7 + 15 - 1) / 15 * 15 ≤ 15 :=
  (claimC4_minute_floor wCfgStep15
    ⟨2024, 0, 10, 9, 0⟩ ⟨2024, 0, 10, 9, 7⟩ rfl (by decide) (by decide)
    (by decide) rfl (by decide)).2 15 (by decide) (by decide)

/-- `wStateCommitted` mid-session: popover open, day 15 picked, time not yet
confirmed. -/
def wStateIncomplete : PickerState :=
  { wStateCommitted with
    isOpen := true
    pickedTime := false
    draft := ⟨2024, 0, 15, 0, 0⟩ }

theorem claimC5_close_incomplete_witness :
    (step { } (.closePicker ⟨2024, 0, 12, 0, 0⟩) wStateIncomplete).committed
        = some ⟨2024, 0, 10, 9, 7⟩ ∧
      (step { } (.closePicker ⟨2024, 0, 12, 0, 0⟩) wStateIncomplete).draft
        = ⟨2024, 0, 10, 9, 5⟩ :=
  ⟨(claimC5_close_incomplete { } wStateIncomplete
      ⟨2024, 0, 12, 0, 0⟩ rfl rfl rfl rfl).1,
   (claimC5_close_incomplete { } wStateIncomplete
      ⟨2024, 0, 12, 0, 0⟩ rfl rfl rfl rfl).2.2.2.2.2.2.1 ⟨2024, 0, 10, 9, 7⟩ rfl⟩

theorem claimC7_month_open_witness :
    DateUtils.isDayDisabled ⟨2024, 2, 5, 0, 0⟩
      ⟨some ⟨2024, 2, 1, 0, 0⟩, some ⟨2024, 2, 1, 0, 0⟩⟩
      (fun _ => true) = true :=
  (claimC7_month_open 2024 2 ⟨some ⟨2024, 2, 1, 0, 0⟩, some ⟨2024, 2, 1, 0, 0⟩⟩
    (by decide)
    (fun mn h => by cases h; decide)
    (fun mx h => by cases h; decide)).2 ⟨2024, 2, 5, 0, 0⟩

theorem claimC8_codec_round_trip_witness :
    parseToDate (encodeValue .iso ⟨2024, 0, 10, 9, 7⟩) = some ⟨2024, 0, 10, 9, 7⟩ :=
  claimC8_codec_round_trip ⟨2024, 0, 10, 9, 7⟩ .iso (by decide) (by decide)

theorem claimC9_open_seeding_witness :
    (step { } (.openPicker ⟨2025, 5, 5, 5, 5⟩) wStateCommitted).draft
      = ⟨2024, 0, 10, 9, 5⟩ :=
  (claimC9_open_seeding { } wStateCommitted ⟨2025, 5, 5, 5, 5⟩ rfl).2.2.1
    ⟨2024, 0, 10, 9, 7⟩ rfl

theorem claimC10_round_up_boundary_witness :
    isHourCompletelyDisabled { minDate := some ⟨2024, 0, 10, 9, 58⟩ }
      ⟨2024, 0, 10, 0, 0⟩ 9 = true :=
  (claimC10_round_up_boundary { minDate := some ⟨2024, 0, 10, 9, 58⟩ }
    ⟨2024, 0, 10, 0, 0⟩ ⟨2024, 0, 10, 9, 58⟩ rfl (by decide) (by decide)
    (by decide) (by decide)).2.2.2

end RhfUi
